import Mathlib

/-!
Shallow embedding of the proxy coordinator of open-ethereum-pool-pps
(src/proxy/proxy.go) and proofs of the specified properties.

Go maps are modelled as association lists with distinct keys where a claim
needs key uniqueness; int64 fields use `Int` with an explicit two's-complement
wrap where overflow is reachable; fatal startup paths (`log.Fatal`) are
modelled as `Except.error`; goroutine bodies driven by timers are modelled as
explicit step functions on the state they touch.
-/

namespace Proxy

/-- Two's-complement wrap of an `Int` into the int64 range, used where the Go
code performs 64-bit integer arithmetic (`atomic.AddInt64`). -/
def wrap64 (x : Int) : Int :=
  (x + 2 ^ 63) % 2 ^ 64 - 2 ^ 63

/-- `type WorkDiff struct` (proxy.go lines 20-24): per-login desired work
difficulty with the two-phase deferred-deletion flags. -/
structure WorkDiff where
  Difficulty : Int
  PassDel : Bool
  IsDel : Bool
  deriving DecidableEq, Repr

/-- Stratum section of the configuration consumed by `NewProxy`
(`cfg.Proxy.Stratum`).  `MinDiffFloat`/`MaxDiffFloat` are float64 in Go;
they are modelled as rationals, with the literal `0.1` rendered as `1/10`. -/
structure StratumConfig where
  Enabled : Bool
  Protocol : String
  MinDiffFloat : ℚ
  MaxDiffFloat : ℚ
  NonceSize : Int
  deriving DecidableEq, Repr

/-- One entry of `cfg.Upstream`. -/
structure UpstreamConfig where
  Name : String
  Url : String
  deriving DecidableEq, Repr

/-- The parts of `cfg.Proxy` the embedded operations read. -/
structure ProxyConfig where
  Stratum : StratumConfig
  HealthCheck : Bool
  MaxFails : Int
  deriving DecidableEq, Repr

/-- The parts of the top-level `Config` the embedded operations read. -/
structure Config where
  Name : String
  Proxy : ProxyConfig
  Upstream : List UpstreamConfig
  deriving DecidableEq, Repr

/-- `rpc.RPCClient` as far as the coordinator observes it: its name and url
(set by `rpc.NewRPCClient(v.Name, v.Url, v.Timeout)`). -/
structure RPCClient where
  Name : String
  Url : String
  deriving DecidableEq, Repr

/-- `type BlockTemplate` as far as the coordinator reads it: the `Height` and
`Difficulty` fields persisted by the state-update timer. -/
structure BlockTemplate where
  Height : Nat
  Difficulty : Int
  deriving DecidableEq, Repr

/-! ## Upstream pool manager (proxy.go lines 221-241) -/

/-- The loop body of `checkUpstreams`: `for i, v := range s.upstreams`,
carrying the pair `(candidate, backup)`; `checks` is the list of results of
`v.Check()` for the remaining upstreams and `i` the index of the first of
them. -/
def scanCandidate : List Bool → Nat → Nat × Bool → Nat × Bool
  | [], _, st => st
  | c :: rest, i, (cand, backup) =>
      scanCandidate rest (i + 1)
        (if c && !backup then (i, true) else (cand, backup))

/-- `func (s *ProxyServer) checkUpstreams()` (proxy.go lines 226-241):
`checks` is the per-upstream result of `Check()` during this sweep and
`upstream` the active index before the sweep; the result is the active index
after the sweep. -/
def checkUpstreams (checks : List Bool) (upstream : Nat) : Nat :=
  let st := scanCandidate checks 0 (0, false)
  let candidate := st.1
  if upstream ≠ candidate then candidate else upstream

/-- `func (s *ProxyServer) rpc()` (proxy.go lines 221-224): index the
upstream slice at the loaded active index.  Out-of-range indexing, a Go
panic, is surfaced as `none`. -/
def rpc (upstreams : List RPCClient) (upstream : Nat) : Option RPCClient :=
  upstreams[upstream]?

/-- The active upstream index after a sequence of `checkUpstreams` sweeps,
starting from the zero value of the `upstream` field. -/
def upstreamIndexTrace (sweeps : List (List Bool)) : Nat :=
  sweeps.foldl (fun cur checks => checkUpstreams checks cur) 0

/-! ## Cleanup sweep of the workDiff map (proxy.go lines 133-149) -/

/-- Effect of one cleanup sweep on a single `workDiff` entry:
`if v.IsDel && !v.PassDel { delete } else if v.IsDel { v.PassDel = false }`.
`none` means the entry is deleted. -/
def sweepEntry (v : WorkDiff) : Option WorkDiff :=
  if v.IsDel && !v.PassDel then none
  else if v.IsDel then some { v with PassDel := false }
  else some v

/-- One cleanup-timer sweep over the whole `workDiff` map, modelled as an
association list (Go map iteration order is irrelevant: each entry is
handled independently). -/
def cleanSweep (m : List (String × WorkDiff)) : List (String × WorkDiff) :=
  m.filterMap (fun kv => (sweepEntry kv.2).map (fun v => (kv.1, v)))

/-! ## Health counter (proxy.go lines 252-266) -/

/-- `func (s *ProxyServer) markSick()`: `atomic.AddInt64(&s.failsCount, 1)`. -/
def markSick (failsCount : Int) : Int :=
  wrap64 (failsCount + 1)

/-- `func (s *ProxyServer) markOk()`: `atomic.StoreInt64(&s.failsCount, 0)`. -/
def markOk (_failsCount : Int) : Int :=
  0

/-- `func (s *ProxyServer) isSick()` (proxy.go lines 256-262). -/
def isSick (cfg : Config) (failsCount : Int) : Bool :=
  if cfg.Proxy.HealthCheck && decide (cfg.Proxy.MaxFails ≤ failsCount) then
    true
  else
    false

/-! ## NewProxy startup validation (proxy.go lines 67-114) -/

/-- The fields `NewProxy` has installed by the time it passes its fatal
checks. -/
structure ProxyInit where
  minDiffFloat : ℚ
  maxDiffFloat : ℚ
  nonceSize : Int
  upstreams : List RPCClient
  deriving DecidableEq, Repr

/-- The fields installed on the server when construction passes the fatal
checks: min/max float difficulty, the clamped nonce size, and the upstream
clients built from `cfg.Upstream`. -/
def proxyFields (cfg : Config) : ProxyInit :=
  ⟨cfg.Proxy.Stratum.MinDiffFloat, cfg.Proxy.Stratum.MaxDiffFloat,
    if cfg.Proxy.Stratum.NonceSize < 2 then 2 else cfg.Proxy.Stratum.NonceSize,
    cfg.Upstream.map (fun v => RPCClient.mk v.Name v.Url)⟩

/-- `func NewProxy(cfg, backend)` (proxy.go lines 67-114), up to the point
where the server is fully constructed.  Each `log.Fatal` call, which aborts
the process, is modelled as `Except.error` carrying its message; the checks
appear in source order. -/
def NewProxy (cfg : Config) : Except String ProxyInit :=
  if cfg.Name.length = 0 then
    Except.error "You must set instance name"
  else if cfg.Proxy.Stratum.MinDiffFloat < 1 / 10 ∧
      cfg.Proxy.Stratum.Protocol = "EthereumStratum" then
    Except.error "For EthereumStratum protocol type, the minimum float difficulty must be set to at least 0.1"
  else if cfg.Proxy.Stratum.Enabled then
    if cfg.Proxy.Stratum.Protocol = "Stratum-Proxy" then
      Except.ok (proxyFields cfg)
    else if cfg.Proxy.Stratum.Protocol = "EthereumStratum" then
      Except.ok (proxyFields cfg)
    else
      Except.error "Please choose either Stratum-Proxy or EthereumStratum protocol for your stratum endpoint."
  else
    Except.error "Stratum endpoint is not configured properly."

/-! ## State-update timer body (proxy.go lines 171-188) -/

/-- One record written by `backend.WriteNodeState(cfg.Name, t.Height,
t.Difficulty)`. -/
structure NodeStateWrite where
  name : String
  height : Nat
  difficulty : Int
  deriving DecidableEq, Repr

/-- One tick of the state-update timer goroutine (proxy.go lines 174-186):
`t` is the result of `currentBlockTemplate()`, `writeOk` tells whether the
backend write would return a nil error, `failsCount` is the health counter
before the tick.  The result lists the backend writes performed during the
tick and gives the health counter after it. -/
def stateUpdateTick (name : String) (t : Option BlockTemplate) (writeOk : Bool)
    (failsCount : Int) : List NodeStateWrite × Int :=
  match t with
  | none => ([], failsCount)
  | some tpl =>
      ([⟨name, tpl.Height, tpl.Difficulty⟩],
        if writeOk then markOk failsCount else markSick failsCount)

/-! ## Notification endpoint root handler (proxy.go lines 196-204) -/

/-- Observable outcome of one request to the `/` handler installed by
`Start`: the HTTP status written (200 is Go's implicit default when the
handler returns without calling `http.Error`), the body written by
`http.Error` (empty when none), and how many times `fetchBlockTemplate` was
invoked. -/
structure HandlerResult where
  status : Nat
  body : String
  refreshes : Nat
  deriving DecidableEq, Repr

/-- The `/` handler body (proxy.go lines 196-204), as a function of the
request method. -/
def rootHandler (method : String) : HandlerResult :=
  if method ≠ "POST" then
    ⟨405, "rpc: POST method required, received " ++ method, 0⟩
  else
    ⟨200, "", 1⟩

/-! ## Clean-timer loop (proxy.go lines 124-149) -/

/-- State of the clean-timer goroutine paired with the map it sweeps:
`armed` is the duration the timer was last armed with, so the n-th sweep
fires `armed` after the (n-1)-th sweep completed. -/
structure CleanLoopState where
  armed : Nat
  workDiff : List (String × WorkDiff)
  deriving DecidableEq, Repr

/-- One firing of the clean timer (proxy.go lines 136-146): run the cleanup
sweep, then `cleanTimer.Reset(refreshIntv)`. -/
def cleanLoopStep (refreshIntv : Nat) (st : CleanLoopState) : CleanLoopState :=
  { armed := refreshIntv, workDiff := cleanSweep st.workDiff }

/-- The clean-timer goroutine after `n` firings.  At `n = 0` this is the
state right after `time.NewTimer(cleanIntv)` (proxy.go line 125): the timer
is armed with the configured clean interval and the map is untouched. -/
def cleanLoopState (cleanIntv refreshIntv : Nat)
    (m : List (String × WorkDiff)) : Nat → CleanLoopState
  | 0 => { armed := cleanIntv, workDiff := m }
  | n + 1 => cleanLoopStep refreshIntv (cleanLoopState cleanIntv refreshIntv m n)

/-! ## Lemmas about the health-check sweep -/

/-- Once `backup` is set, the remaining iterations of the `checkUpstreams`
loop leave the state untouched. -/
lemma scanCandidate_frozen (checks : List Bool) :
    ∀ (i cand : Nat), scanCandidate checks i (cand, true) = (cand, true) := by
  induction checks with
  | nil => intro i cand; rfl
  | cons c rest ih =>
      intro i cand
      simp only [scanCandidate, Bool.not_true, Bool.and_false]
      rw [if_neg Bool.false_ne_true]
      exact ih (i + 1) cand

/-- If every remaining `Check()` result is false, the loop state is
unchanged. -/
lemma scanCandidate_all_false (checks : List Bool) :
    ∀ (i : Nat) (st : Nat × Bool), (∀ c ∈ checks, c = false) →
      scanCandidate checks i st = st := by
  induction checks with
  | nil => intro i st _; rfl
  | cons c rest ih =>
      intro i st h
      obtain ⟨cand, backup⟩ := st
      have hc : c = false := h c (List.mem_cons_self c rest)
      simp only [scanCandidate, hc, Bool.false_and]
      rw [if_neg Bool.false_ne_true]
      exact ih (i + 1) (cand, backup) (fun x hx => h x (List.mem_cons_of_mem c hx))

/-- Starting with `backup = false`, the loop ends with the candidate at the
first healthy position, offset by the starting loop counter. -/
lemma scanCandidate_first_true (checks : List Bool) :
    ∀ (i i0 cand : Nat), checks.getD i false = true →
      (∀ j, j < i → checks.getD j false = false) →
      scanCandidate checks i0 (cand, false) = (i0 + i, true) := by
  induction checks with
  | nil =>
      intro i i0 cand h1 _
      simp [List.getD] at h1
  | cons c rest ih =>
      intro i i0 cand h1 h2
      cases i with
      | zero =>
          have hc : c = true := by simpa using h1
          simp only [scanCandidate, hc, Bool.not_false, Bool.and_self]
          rw [if_pos trivial]
          simpa using scanCandidate_frozen rest (i0 + 1) i0
      | succ j =>
          have hc : c = false := by simpa using h2 0 (Nat.succ_pos j)
          simp only [scanCandidate, hc, Bool.false_and]
          rw [if_neg Bool.false_ne_true]
          have := ih j (i0 + 1) cand (by simpa using h1)
            (fun j2 hj2 => by simpa using h2 (j2 + 1) (Nat.succ_lt_succ hj2))
          rw [this]
          congr 1
          omega

/-- The final candidate is either the initial one or lies in the index range
of the scanned checks. -/
lemma scanCandidate_bound (checks : List Bool) :
    ∀ (i0 cand : Nat) (b : Bool),
      (scanCandidate checks i0 (cand, b)).1 = cand ∨
        (i0 ≤ (scanCandidate checks i0 (cand, b)).1 ∧
          (scanCandidate checks i0 (cand, b)).1 < i0 + checks.length) := by
  induction checks with
  | nil => intro i0 cand b; exact Or.inl rfl
  | cons c rest ih =>
      intro i0 cand b
      simp only [scanCandidate]
      by_cases hc : (c && !b) = true
      · rw [if_pos hc]
        rcases ih (i0 + 1) i0 true with h | h
        · right
          constructor
          · omega
          · simp only [List.length_cons]; omega
        · right
          constructor
          · omega
          · simp only [List.length_cons]; omega
      · rw [if_neg hc]
        rcases ih (i0 + 1) cand b with h | h
        · exact Or.inl h
        · right
          constructor
          · omega
          · simp only [List.length_cons]; omega

/-- `checkUpstreams` always returns the sweep's candidate, whether or not it
differs from the previous active index. -/
lemma checkUpstreams_eq_candidate (checks : List Bool) (upstream : Nat) :
    checkUpstreams checks upstream = (scanCandidate checks 0 (0, false)).1 := by
  simp only [checkUpstreams]
  split
  · rfl
  · omega

/-- With at least one upstream configured, the index stored by a sweep is in
range. -/
lemma checkUpstreams_lt (checks : List Bool) (upstream : Nat)
    (h : 0 < checks.length) : checkUpstreams checks upstream < checks.length := by
  rw [checkUpstreams_eq_candidate]
  rcases scanCandidate_bound checks 0 0 false with hb | hb
  · omega
  · omega

/-- C1 (counterexample): the claim "if no upstream reports healthy, the
active index after the sweep equals the index before the sweep, for every
prior value" is false: with two upstreams both failing `Check()` and prior
active index 1, `checkUpstreams` stores index 0. -/
theorem checkUpstreams_none_healthy_counterexample :
    (∀ c ∈ [false, false], c = false) ∧
      checkUpstreams [false, false] 1 = 0 ∧ (0 : Nat) ≠ 1 := by
  refine ⟨?_, by decide, by decide⟩
  decide

/-- C1 (amended): when no configured upstream reports healthy during a
sweep, `checkUpstreams` sets the active index to 0 (the highest-priority
upstream), so the index is unchanged only when it was already 0. -/
theorem checkUpstreams_none_healthy (checks : List Bool) (upstream : Nat)
    (h : ∀ c ∈ checks, c = false) :
    checkUpstreams checks upstream = 0 := by
  rw [checkUpstreams_eq_candidate]
  rw [scanCandidate_all_false checks 0 (0, false) h]

/-- C1 (witness): the amended statement at the counterexample's input. -/
theorem checkUpstreams_none_healthy_witness :
    checkUpstreams [false, false] 1 = 0 :=
  checkUpstreams_none_healthy [false, false] 1 (by decide)

/-- C2: when at least one upstream reports healthy during a sweep, the
active index after the sweep is the smallest index whose `Check()` returned
true, regardless of the prior active index. -/
theorem checkUpstreams_first_healthy (checks : List Bool) (upstream i : Nat)
    (h1 : checks.getD i false = true)
    (h2 : ∀ j, j < i → checks.getD j false = false) :
    checkUpstreams checks upstream = i := by
  rw [checkUpstreams_eq_candidate]
  rw [scanCandidate_first_true checks i 0 0 h1 h2]
  simp

/-- C2 (witness): three upstreams [A, B, C] with A and C healthy and B not,
prior active index 2: the sweep selects A (index 0). -/
theorem checkUpstreams_first_healthy_witness :
    checkUpstreams [true, false, true] 2 = 0 :=
  checkUpstreams_first_healthy [true, false, true] 2 0 (by decide)
    (fun j hj => absurd hj (Nat.not_lt_zero j))

/-- The active index stays in range along any sequence of sweeps, provided
every sweep checks each configured upstream. -/
lemma foldl_checkUpstreams_lt (n : Nat) (hn : 0 < n) :
    ∀ (sweeps : List (List Bool)) (init : Nat), init < n →
      (∀ s ∈ sweeps, s.length = n) →
      sweeps.foldl (fun cur checks => checkUpstreams checks cur) init < n := by
  intro sweeps
  induction sweeps with
  | nil => intro init hinit _; exact hinit
  | cons s rest ih =>
      intro init hinit hall
      simp only [List.foldl_cons]
      refine ih (checkUpstreams s init) ?_
        (fun x hx => hall x (List.mem_cons_of_mem s hx))
      have hs : s.length = n := hall s (List.mem_cons_self s rest)
      have := checkUpstreams_lt s init (by omega)
      omega

/-- C10: with a non-empty upstream list, the active index starts at 0 and
after any prefix of health-check sweeps remains a valid index, so `rpc()`'s
slice access always succeeds. -/
theorem upstreamIndexTrace_safe (ups : List RPCClient)
    (sweeps : List (List Bool)) (hn : 0 < ups.length)
    (hs : ∀ s ∈ sweeps, s.length = ups.length) :
    upstreamIndexTrace [] = 0 ∧
      ∀ k, upstreamIndexTrace (sweeps.take k) < ups.length ∧
        (rpc ups (upstreamIndexTrace (sweeps.take k))).isSome = true := by
  refine ⟨rfl, fun k => ?_⟩
  have hlt : upstreamIndexTrace (sweeps.take k) < ups.length := by
    refine foldl_checkUpstreams_lt ups.length hn (sweeps.take k) 0 hn ?_
    intro s hsmem
    exact hs s (List.mem_of_mem_take hsmem)
  refine ⟨hlt, ?_⟩
  simp only [rpc]
  rw [List.getElem?_eq_getElem hlt]
  rfl

/-- C10 (witness): one upstream, one all-healthy sweep: indexing after the
first sweep succeeds. -/
theorem upstreamIndexTrace_safe_witness :
    upstreamIndexTrace ([[true]].take 1) < 1 ∧
      (rpc [RPCClient.mk "a" "u"]
        (upstreamIndexTrace ([[true]].take 1))).isSome = true := by
  have h := upstreamIndexTrace_safe [RPCClient.mk "a" "u"] [[true]]
    (by decide) (by decide)
  simpa using h.2 1

/-! ## Lemmas about the cleanup sweep -/

/-- In a map with distinct keys (a Go map), a key determines its value. -/
lemma key_unique (m : List (String × WorkDiff)) (k : String)
    (a b : WorkDiff) (hnd : (m.map Prod.fst).Nodup)
    (ha : (k, a) ∈ m) (hb : (k, b) ∈ m) : a = b := by
  induction m with
  | nil => cases ha
  | cons kv rest ih =>
      rw [List.map_cons] at hnd
      have hk : kv.1 ∉ rest.map Prod.fst := (List.nodup_cons.mp hnd).1
      have hnd2 : (rest.map Prod.fst).Nodup := (List.nodup_cons.mp hnd).2
      rcases List.mem_cons.mp ha with ha0 | ha0 <;>
        rcases List.mem_cons.mp hb with hb0 | hb0
      · rw [← hb0] at ha0
        simpa using congrArg Prod.snd ha0
      · exfalso
        apply hk
        rw [← ha0]
        exact List.mem_map.mpr ⟨(k, b), hb0, rfl⟩
      · exfalso
        apply hk
        rw [← hb0]
        exact List.mem_map.mpr ⟨(k, a), ha0, rfl⟩
      · exact ih hnd2 ha0 hb0

/-- Membership in the swept map: every surviving entry comes from an entry of
the original map with the same key that the per-entry rule kept. -/
lemma mem_cleanSweep_iff (m : List (String × WorkDiff)) (k : String)
    (v : WorkDiff) :
    (k, v) ∈ cleanSweep m ↔ ∃ w, (k, w) ∈ m ∧ sweepEntry w = some v := by
  constructor
  · intro h
    obtain ⟨kv, hmem, hf⟩ := List.mem_filterMap.mp h
    obtain ⟨v2, hsw, heq⟩ := Option.map_eq_some'.mp hf
    obtain ⟨k2, w⟩ := kv
    injection heq with hk hv
    subst hk
    subst hv
    exact ⟨w, hmem, hsw⟩
  · rintro ⟨w, hmem, hsw⟩
    exact List.mem_filterMap.mpr ⟨(k, w), hmem, by rw [hsw]; rfl⟩

/-- The sweep never invents keys: the swept map's key list is a sublist of
the original one (hence key distinctness is preserved). -/
lemma cleanSweep_keys_sublist (m : List (String × WorkDiff)) :
    ((cleanSweep m).map Prod.fst).Sublist (m.map Prod.fst) := by
  induction m with
  | nil => simp [cleanSweep]
  | cons kv rest ih =>
      simp only [cleanSweep] at ih ⊢
      rw [List.filterMap_cons]
      cases hsw : sweepEntry kv.2 with
      | none =>
          simp only [hsw, Option.map_none', List.map_cons]
          exact ih.cons kv.1
      | some v =>
          simp only [hsw, Option.map_some', List.map_cons]
          exact ih.cons₂ kv.1

/-- The per-entry sweep rule never changes the Difficulty field. -/
lemma sweepEntry_difficulty (w v : WorkDiff) (h : sweepEntry w = some v) :
    v.Difficulty = w.Difficulty := by
  simp only [sweepEntry] at h
  split at h
  · cases h
  · split at h
    · cases h; rfl
    · cases h; rfl

/-- C3: two-phase deferred deletion.  An entry marked `IsDel` with
`PassDel = true` survives the sweep with `PassDel` cleared (so it is
restorable) and is only removed by the next sweep; an entry marked `IsDel`
with `PassDel = false` is deleted by this sweep. -/
theorem cleanSweep_two_phase (m : List (String × WorkDiff)) (k : String)
    (v : WorkDiff) (hnd : (m.map Prod.fst).Nodup) (hmem : (k, v) ∈ m)
    (hdel : v.IsDel = true) :
    (v.PassDel = true →
        (k, { v with PassDel := false }) ∈ cleanSweep m ∧
          ∀ w, (k, w) ∉ cleanSweep (cleanSweep m)) ∧
      (v.PassDel = false → ∀ w, (k, w) ∉ cleanSweep m) := by
  constructor
  · intro hpass
    have hsw : sweepEntry v = some { v with PassDel := false } := by
      simp [sweepEntry, hdel, hpass]
    have hmem1 : (k, { v with PassDel := false }) ∈ cleanSweep m :=
      (mem_cleanSweep_iff m k _).mpr ⟨v, hmem, hsw⟩
    refine ⟨hmem1, fun w hw => ?_⟩
    obtain ⟨w0, hw0mem, hw0sw⟩ := (mem_cleanSweep_iff (cleanSweep m) k w).mp hw
    have hnd1 : ((cleanSweep m).map Prod.fst).Nodup :=
      hnd.sublist (cleanSweep_keys_sublist m)
    have hw0 : w0 = { v with PassDel := false } :=
      key_unique (cleanSweep m) k w0 _ hnd1 hw0mem hmem1
    rw [hw0] at hw0sw
    simp [sweepEntry, hdel] at hw0sw
  · intro hpass w hw
    obtain ⟨w0, hw0mem, hw0sw⟩ := (mem_cleanSweep_iff m k w).mp hw
    have hw0 : w0 = v := key_unique m k w0 v hnd hw0mem hmem
    rw [hw0] at hw0sw
    simp [sweepEntry, hdel, hpass] at hw0sw

/-- C3 (witness): a single marked entry with `PassDel = true` survives the
first sweep with `PassDel` cleared and is gone after the second. -/
theorem cleanSweep_two_phase_witness :
    (("a", WorkDiff.mk 5 false true) ∈
        cleanSweep [("a", WorkDiff.mk 5 true true)] ∧
      ("a", WorkDiff.mk 5 false true) ∉
        cleanSweep (cleanSweep [("a", WorkDiff.mk 5 true true)])) := by
  have h := cleanSweep_two_phase [("a", WorkDiff.mk 5 true true)] "a"
    (WorkDiff.mk 5 true true) (by decide) (by decide) rfl
  exact ⟨(h.1 rfl).1, (h.1 rfl).2 (WorkDiff.mk 5 false true)⟩

/-- C9: the sweep is frame-preserving on live entries: an entry with
`IsDel = false` survives the sweep with all fields unchanged, and no sweep
ever modifies the Difficulty field of any entry. -/
theorem cleanSweep_frame (m : List (String × WorkDiff)) (k : String)
    (v : WorkDiff) (hmem : (k, v) ∈ m) (hlive : v.IsDel = false) :
    (k, v) ∈ cleanSweep m ∧
      ∀ k2 w, (k2, w) ∈ cleanSweep m →
        ∃ w0, (k2, w0) ∈ m ∧ w.Difficulty = w0.Difficulty := by
  constructor
  · refine (mem_cleanSweep_iff m k v).mpr ⟨v, hmem, ?_⟩
    simp [sweepEntry, hlive]
  · intro k2 w hw
    obtain ⟨w0, hw0mem, hw0sw⟩ := (mem_cleanSweep_iff m k2 w).mp hw
    exact ⟨w0, hw0mem, sweepEntry_difficulty w0 w hw0sw⟩

/-- C9 (witness): a live entry is untouched by a sweep of a map that also
holds a marked entry, and the surviving marked entry keeps its difficulty. -/
theorem cleanSweep_frame_witness :
    ("c", WorkDiff.mk 9 false false) ∈
        cleanSweep [("a", WorkDiff.mk 5 true true),
          ("c", WorkDiff.mk 9 false false)] ∧
      ∃ w0, ("a", w0) ∈ [("a", WorkDiff.mk 5 true true),
          ("c", WorkDiff.mk 9 false false)] ∧
        (WorkDiff.mk 5 false true).Difficulty = w0.Difficulty := by
  have h := cleanSweep_frame
    [("a", WorkDiff.mk 5 true true), ("c", WorkDiff.mk 9 false false)]
    "c" (WorkDiff.mk 9 false false) (by decide) rfl
  exact ⟨h.1, h.2 "a" (WorkDiff.mk 5 false true) (by decide)⟩

/-- C8: the clean timer is first armed with the configured clean interval,
but after every sweep it is re-armed with the block-refresh interval, so all
sweeps after the first fire on the refresh interval. -/
theorem cleanTimer_reset_interval (cleanIntv refreshIntv : Nat)
    (m : List (String × WorkDiff)) :
    (cleanLoopState cleanIntv refreshIntv m 0).armed = cleanIntv ∧
      ∀ n, (cleanLoopState cleanIntv refreshIntv m (n + 1)).armed =
        refreshIntv :=
  ⟨rfl, fun _ => rfl⟩

/-! ## Health counter, state-update tick, startup checks, root handler -/

/-- A concrete configuration used to discharge hypotheses in witnesses:
health check enabled with MaxFails = 2, Stratum-Proxy protocol enabled. -/
def sampleConfig : Config :=
  ⟨"pool-1", ⟨⟨true, "Stratum-Proxy", 1, 100, 2⟩, true, 2⟩,
    [⟨"main", "http://127.0.0.1:8545"⟩]⟩

/-- C4: `isSick` holds exactly when the health check is enabled and the
failure counter has reached MaxFails; `markSick` increments the counter by
one (below the int64 bound), `markOk` resets it to zero; hence from zero,
two failures with MaxFails = 2 make the server sick and one success makes
it ok again. -/
theorem isSick_iff_counter (cfg : Config) (c : Int)
    (h1 : -(2 ^ 63) ≤ c) (h2 : c < 2 ^ 63 - 1) :
    (isSick cfg c = true ↔
        cfg.Proxy.HealthCheck = true ∧ cfg.Proxy.MaxFails ≤ c) ∧
      markSick c = c + 1 ∧
      markOk c = 0 ∧
      (cfg.Proxy.HealthCheck = true → cfg.Proxy.MaxFails = 2 →
        isSick cfg (markSick (markSick 0)) = true ∧
        isSick cfg (markOk (markSick (markSick 0))) = false) := by
  refine ⟨?_, ?_, rfl, ?_⟩
  · simp [isSick, Bool.and_eq_true, decide_eq_true_iff]
  · simp only [markSick, wrap64]
    omega
  · intro hhc hmf
    have h0 : markSick (markSick 0) = 2 := by
      simp only [markSick, wrap64]
      norm_num
    rw [h0]
    constructor
    · simp [isSick, hhc, hmf]
    · simp [isSick, markOk, hhc, hmf]

/-- C4 (witness): the statement at counter 0 under the sample
configuration. -/
theorem isSick_iff_counter_witness :
    (isSick sampleConfig 0 = true ↔
        sampleConfig.Proxy.HealthCheck = true ∧
          sampleConfig.Proxy.MaxFails ≤ 0) ∧
      markSick 0 = 0 + 1 ∧
      markOk 0 = 0 ∧
      (sampleConfig.Proxy.HealthCheck = true →
        sampleConfig.Proxy.MaxFails = 2 →
        isSick sampleConfig (markSick (markSick 0)) = true ∧
        isSick sampleConfig (markOk (markSick (markSick 0))) = false) :=
  isSick_iff_counter sampleConfig 0 (by norm_num) (by norm_num)

/-- C5: when a template exists, a state-update tick performs exactly one
backend write of (instance name, height, difficulty), marking sick on write
error and ok on success; with no template it writes nothing and leaves the
counter unchanged. -/
theorem stateUpdateTick_spec (name : String) (tpl : BlockTemplate)
    (writeOk : Bool) (fails : Int) :
    (stateUpdateTick name (some tpl) writeOk fails).1 =
        [⟨name, tpl.Height, tpl.Difficulty⟩] ∧
      (stateUpdateTick name (some tpl) false fails).2 = markSick fails ∧
      (stateUpdateTick name (some tpl) true fails).2 = markOk fails ∧
      (stateUpdateTick name none writeOk fails).1 = [] ∧
      (stateUpdateTick name none writeOk fails).2 = fails :=
  ⟨rfl, rfl, rfl, rfl, rfl⟩

/-- C6: `NewProxy` aborts fatally whenever the instance name is empty, the
stratum endpoint is disabled, the protocol is neither Stratum-Proxy nor
EthereumStratum, or the protocol is EthereumStratum with a minimum float
difficulty below 0.1. -/
theorem NewProxy_fatal_configs (cfg : Config)
    (h : cfg.Name.length = 0 ∨ cfg.Proxy.Stratum.Enabled = false ∨
      (cfg.Proxy.Stratum.Protocol ≠ "Stratum-Proxy" ∧
        cfg.Proxy.Stratum.Protocol ≠ "EthereumStratum") ∨
      (cfg.Proxy.Stratum.Protocol = "EthereumStratum" ∧
        cfg.Proxy.Stratum.MinDiffFloat < 1 / 10)) :
    ∃ e, NewProxy cfg = Except.error e := by
  unfold NewProxy
  split_ifs <;>
    first
      | exact ⟨_, rfl⟩
      | (exfalso
         rcases h with hh | hh | hh | hh <;> simp_all <;> linarith)

/-- C6 (witness): an empty instance name makes startup abort. -/
theorem NewProxy_fatal_witness :
    ∃ e, NewProxy ⟨"", ⟨⟨true, "Stratum-Proxy", 1, 100, 2⟩, true, 2⟩, []⟩ =
      Except.error e :=
  NewProxy_fatal_configs _ (Or.inl rfl)

/-- C7: a non-POST request to the notification endpoint gets status 405
with a plain-text body naming the received method and triggers no refresh;
a POST triggers exactly one template refresh. -/
theorem rootHandler_spec (method : String) :
    (method ≠ "POST" →
        (rootHandler method).status = 405 ∧
          (rootHandler method).body =
            "rpc: POST method required, received " ++ method ∧
          (rootHandler method).refreshes = 0) ∧
      (rootHandler "POST").refreshes = 1 := by
  constructor
  · intro h
    simp [rootHandler, h]
  · rfl

/-- C7 (witness): a GET receives a 405 naming GET and causes no refresh,
while a POST refreshes once. -/
theorem rootHandler_spec_witness :
    ((rootHandler "GET").status = 405 ∧
        (rootHandler "GET").body =
          "rpc: POST method required, received " ++ "GET" ∧
        (rootHandler "GET").refreshes = 0) ∧
      (rootHandler "POST").refreshes = 1 :=
  ⟨(rootHandler_spec "GET").1 (by decide), (rootHandler_spec "GET").2⟩

end Proxy
